import Mathlib

/-!
Verification development for the givebutter_report repository.

The Python sources (transaction_parse.py, fundraising_parse.py,
google_upload.py, ticket_parse.py, ticket_processor.py) are shallowly
embedded below: pure data transformations become Lean functions on lists
and strings, the Google Contacts sync becomes an explicit state-passing
function over a modelled remote directory, and the HTTP pagination loops
become fuel-indexed recursions over an abstract page-serving function.
-/

/-! ## Python string primitives used throughout the scripts -/

/-- ASCII whitespace, as recognised by Python `str.strip()` on the data
appearing in these CSV files. -/
def isSpaceChar (c : Char) : Bool :=
  c == ' ' || c == '\t' || c == '\n' || c == '\r' || c == '\x0b' || c == '\x0c'

/-- `str.strip()` on the character list: drop whitespace from both ends. -/
def stripList (l : List Char) : List Char :=
  ((l.dropWhile isSpaceChar).reverse.dropWhile isSpaceChar).reverse

/-- Python `s.strip()`. -/
def pyStrip (s : String) : String := ⟨stripList s.data⟩

/-- Python `s.lower()` (ASCII). -/
def pyLower (s : String) : String := ⟨s.data.map Char.toLower⟩

/-- Helper for `str.title()`: the boolean records whether the previous
character was alphabetic (cased). -/
def pyTitleGo : List Char → Bool → List Char
  | [], _ => []
  | c :: rest, prevCased =>
      (if c.isAlpha then (if prevCased then c.toLower else c.toUpper) else c)
        :: pyTitleGo rest c.isAlpha

/-- Python `s.title()` on a character list (ASCII). -/
def pyTitleList (l : List Char) : List Char := pyTitleGo l false

/-- Python `s.title()`. -/
def pyTitle (s : String) : String := ⟨pyTitleList s.data⟩

/-- First component of Python `s.split(' ', 1)`: the characters before the
first space (the whole string if there is no space). -/
def firstWord (s : String) : String := ⟨s.data.takeWhile (fun c => c != ' ')⟩

/-! ## Association lists standing for Python dicts

Python dicts keep one value per key; building a dict by repeated
assignment keeps the first key position and the last assigned value.
`insertAssoc` mirrors a single `d[k] = v` assignment and `lookupAssoc`
mirrors `d.get(k)` / `k in d`. -/

/-- `d.get(k)` on an association list (first matching key wins; lists built
with `insertAssoc` have distinct keys). -/
def lookupAssoc {α : Type} : List (String × α) → String → Option α
  | [], _ => none
  | (k1, v) :: rest, k => if k1 = k then some v else lookupAssoc rest k

/-- `d[k] = v`: replace the value at the first matching key, else append. -/
def insertAssoc {α : Type} : List (String × α) → String → α → List (String × α)
  | [], k, v => [(k, v)]
  | (k1, v1) :: rest, k, v =>
      if k1 = k then (k1, v) :: rest else (k1, v1) :: insertAssoc rest k v

/-! ## C1 — Change Detector (`transaction_parse.save_and_compare_df`) -/

/-- A CSV row, identified with the tuple of its column values (pandas row
equality in `drop_duplicates` is equality of all column values). -/
abbrev CsvDataRow := List String

/-- A previously saved snapshot file for one description, with its
filesystem creation time (`os.path.getctime`). -/
structure Snapshot where
  ctime : Nat
  rows : List CsvDataRow
deriving DecidableEq

/-- `max(previous_files, key=os.path.getctime)`: the first snapshot of
maximal creation time (Python `max` keeps the earliest maximal element). -/
def mostRecent : List Snapshot → Option Snapshot
  | [] => none
  | f :: rest => some (rest.foldl (fun best g => if g.ctime > best.ctime then g else best) f)

/-- `pd.concat([df, previous_df, previous_df]).drop_duplicates(keep=False)`:
keep, in order, the rows of the concatenation whose value occurs exactly
once in the whole concatenation. -/
def comparisonRows (df prev : List CsvDataRow) : List CsvDataRow :=
  (df ++ prev ++ prev).filter (fun r => (df ++ prev ++ prev).count r == 1)

/-- `save_and_compare_df` (transaction_parse.py, lines 27-53), reduced to
its observable decision: given the new table and the prior snapshots for
the same description, return `some changes` when a changes file is
written and `none` when "No changes detected." (or no prior file exists). -/
def save_and_compare_df (df : List CsvDataRow) (priors : List Snapshot) :
    Option (List CsvDataRow) :=
  match mostRecent priors with
  | none => none
  | some prev =>
      let c := comparisonRows df prev.rows
      if c.isEmpty then none else some c

/-- Follows the spec's words, for comparison with `comparisonRows`: the
symmetric difference of the two row sets — rows of the new table absent
from the prior table together with rows of the prior table absent from
the new table. -/
def specSymmDiff (a b : List CsvDataRow) : List CsvDataRow :=
  a.filter (fun r => !(b.contains r)) ++ b.filter (fun r => !(a.contains r))

/-! ## C3 — Paginated fetches (`fundraising_parse.get_campaign_members`,
`fundraising_parse.get_tickets`)

The remote API is abstracted as a function from page number to the JSON
envelope `{data, meta:{current_page, last_page}}` of the 200 response;
payload items are abstracted by identifiers. The `while True` loop is
given explicit fuel; `none` stands for non-termination within the fuel. -/

structure PageMeta where
  current_page : Nat
  last_page : Nat
deriving DecidableEq

structure PageResp where
  data : List Nat
  meta : PageMeta
deriving DecidableEq

/-- The `while True` loop of `get_campaign_members` (fundraising_parse.py,
lines 93-111): record the requested page, extend the accumulator with the
page's data, then continue while `current_page <= last_page`. Returns the
requested pages together with the accumulated members. -/
def get_campaign_members_loop (api : Nat → PageResp) :
    Nat → Nat → List Nat → List Nat → Option (List Nat × List Nat)
  | 0, _, _, _ => none
  | fuel + 1, page, requested, acc =>
      let resp := api page
      if resp.meta.current_page ≤ resp.meta.last_page then
        get_campaign_members_loop api fuel (page + 1) (requested ++ [page]) (acc ++ resp.data)
      else
        some (requested ++ [page], acc ++ resp.data)

/-- `get_campaign_members` (fundraising_parse.py, lines 89-115): page
numbering starts at 1. -/
def get_campaign_members (api : Nat → PageResp) (fuel : Nat) :
    Option (List Nat × List Nat) :=
  get_campaign_members_loop api fuel 1 [] []

/-- The `while True` loop of `get_tickets` (fundraising_parse.py, lines
118-131), duplicated from the members loop in the source. -/
def get_tickets_loop (api : Nat → PageResp) :
    Nat → Nat → List Nat → List Nat → Option (List Nat × List Nat)
  | 0, _, _, _ => none
  | fuel + 1, page, requested, acc =>
      let resp := api page
      if resp.meta.current_page ≤ resp.meta.last_page then
        get_tickets_loop api fuel (page + 1) (requested ++ [page]) (acc ++ resp.data)
      else
        some (requested ++ [page], acc ++ resp.data)

/-- `get_tickets` (fundraising_parse.py, lines 117-134). -/
def get_tickets (api : Nat → PageResp) (fuel : Nat) :
    Option (List Nat × List Nat) :=
  get_tickets_loop api fuel 1 [] []

/-- A well-behaved one-page API used as a concrete test instance: one real
page, and every response reports the requested page as `current_page`. -/
def apiOnePage : Nat → PageResp := fun p =>
  { data := if p ≤ 1 then [p] else [], meta := { current_page := p, last_page := 1 } }

/-! ## C4 — sheet-name labels -/

/-- The characters Excel forbids in sheet names, per the spec. -/
def excelForbidden : List Char := ['[', ']', ':', '*', '?', '\\', '/']

/-- Sheet-name derivation in `format_data` (fundraising_parse.py, lines
177-180): `title.rsplit("-", 1)[-1]` (the part after the last `-`, or the
whole string), then `.replace("/", "_")[:31]`. -/
def format_data_sheet_name (title : List Char) : List Char :=
  (((title.reverse.takeWhile (fun c => c != '-')).reverse).map
      (fun c => if c == '/' then '_' else c)).take 31

/-- `description_to_sheet_map` (transaction_parse.py, lines 125-129). -/
def description_to_sheet_map : List (String × String) :=
  [("2025 Ride for Missing Children - MV New / Returning Riders", "NewAndReturning"),
   ("2025 Ride for Missing Children - MV Reciprocal Riders", "Reciprocal"),
   ("2025 Ride for Missing Children - MV Volunteer", "Volunteer")]

/-! ## C5 — report writing

The writers are modelled by the sequence of filesystem-visible steps they
perform. `wb.save(path)` and `pd.ExcelWriter(path)` both write directly at
the destination path; neither script renames anything. A crash during a
`save` leaves a half-written file at that path, while a `rename` is atomic
(a crash during it leaves the filesystem unchanged). -/

inductive FileState where
  | absent
  | incomplete
  | complete
deriving DecidableEq

inductive WriteStep where
  | save (path : String)
  | rename (src dst : String)
deriving DecidableEq

/-- Effect of one completed step on the (path ↦ state) filesystem. -/
def applyStep (fs : List (String × FileState)) : WriteStep → List (String × FileState)
  | WriteStep.save p => insertAssoc fs p FileState.complete
  | WriteStep.rename src dst =>
      match lookupAssoc fs src with
      | some st => insertAssoc (insertAssoc fs src FileState.absent) dst st
      | none => fs

/-- Effect of a step interrupted by a failure: an interrupted save leaves
a partial file; an interrupted rename changes nothing. -/
def crashStep (fs : List (String × FileState)) : WriteStep → List (String × FileState)
  | WriteStep.save p => insertAssoc fs p FileState.incomplete
  | WriteStep.rename _ _ => fs

/-- Run all steps to completion. -/
def runSteps : List WriteStep → List (String × FileState) → List (String × FileState)
  | [], fs => fs
  | s :: rest, fs => runSteps rest (applyStep fs s)

/-- Run the first `k` steps to completion, then fail during step `k`. -/
def runStepsCrash : List WriteStep → Nat → List (String × FileState) → List (String × FileState)
  | [], _, fs => fs
  | s :: _, 0, fs => crashStep fs s
  | s :: rest, k + 1, fs => runStepsCrash rest k (applyStep fs s)

/-- The filesystem steps of `format_data` (fundraising_parse.py, lines
199-201): a single direct `wb.save` at the final report path. -/
def format_data_write_steps : List WriteStep :=
  [WriteStep.save "GiveButterReport.xlsx"]

/-- The filesystem steps of the master-Excel write in `main`
(transaction_parse.py, lines 141-148): `pd.ExcelWriter` writes directly at
the timestamped final path. -/
def transaction_master_write_steps (t : Nat) : List WriteStep :=
  [WriteStep.save ("Rider_Volunteer_MasterList_" ++ toString t ++ ".xlsx")]

/-! ## C6, C7, C8, C10 — the contact-CSV builder and Column Reconciler
(`google_upload.process_mv_sheets`, lines 231-305) -/

/-- One entry of `mapping_dict`: the recorded incorrect value and the
correct replacement. -/
structure MapEntry where
  incorrect : String
  correct : String
deriving DecidableEq

/-- `mapping_dict` construction (google_upload.py, lines 234-242): a dict
keyed by stripped ticket number; all values stripped; later file rows
overwrite earlier ones with the same key. The input triples are the raw
`(Ticket Number, Incorrect, Correct)` rows of data_map.txt. -/
def buildMappingDict (rows : List (String × String × String)) : List (String × MapEntry) :=
  rows.foldl (fun m r => insertAssoc m (pyStrip r.1) ⟨pyStrip r.2.1, pyStrip r.2.2⟩) []

/-- The cells of one MV-sheet row that `process_mv_sheets` reads, after
`str(...)` conversion. -/
structure MvRow where
  ticketNumber : String
  firstName : String
  lastName : String
  email : String
  phone : String
deriving DecidableEq

/-- The non-constant fields of the produced Google-Contacts CSV row (all
remaining template columns are the empty string). -/
structure ContactCsvRow where
  firstName : String
  lastName : String
  emailLabel : String
  emailValue : String
  phoneLabel : String
  phoneValue : String
  labels : String
deriving DecidableEq

/-- The row loop body of `process_mv_sheets` (google_upload.py, lines
278-299): strip and title-case the names, reconcile the email against the
mapping (replace exactly when the ticket number has an entry whose
`Incorrect` value equals the stripped email), and tag by sheet name. -/
def mkContact (md : List (String × MapEntry)) (sheet : String) (row : MvRow) : ContactCsvRow :=
  let tn := pyStrip row.ticketNumber
  let origEmail := pyStrip row.email
  let email :=
    match lookupAssoc md tn with
    | some ent => if origEmail = ent.incorrect then ent.correct else origEmail
    | none => origEmail
  { firstName := pyTitle (pyStrip row.firstName)
    lastName := pyTitle (pyStrip row.lastName)
    emailLabel := "Email"
    emailValue := email
    phoneLabel := "Phone"
    phoneValue := pyStrip row.phone
    labels := pyStrip (if sheet = "MV Volunteer" then "2025_Volunteer" else "2025_Rider") }

/-- Follows the spec's words for the mapping-unavailable case: the same
builder with the reconciliation step removed (the email is passed through
as read from the sheet). -/
def mkContactNoReconcile (sheet : String) (row : MvRow) : ContactCsvRow :=
  { firstName := pyTitle (pyStrip row.firstName)
    lastName := pyTitle (pyStrip row.lastName)
    emailLabel := "Email"
    emailValue := pyStrip row.email
    phoneLabel := "Phone"
    phoneValue := pyStrip row.phone
    labels := pyStrip (if sheet = "MV Volunteer" then "2025_Volunteer" else "2025_Rider") }

/-- The email-reconciliation decision of google_upload.py, lines 283-287,
on already-stringified cell values. -/
def reconcileEmailCell (md : List (String × MapEntry)) (tn e : String) : String :=
  match lookupAssoc md tn with
  | some ent => if e = ent.incorrect then ent.correct else e
  | none => e

/-- The Column Reconciler as a row transformation: rewrite the email cell
as lines 279-287 of google_upload.py do, leaving every other cell alone. -/
def reconcileRow (md : List (String × MapEntry)) (r : MvRow) : MvRow :=
  { r with email := reconcileEmailCell md (pyStrip r.ticketNumber) (pyStrip r.email) }

/-- The Column Reconciler applied to a whole table (each row reconciled
independently). -/
def reconcileTable (md : List (String × MapEntry)) (rows : List MvRow) : List MvRow :=
  rows.map (reconcileRow md)

/-- The transaction-table columns involved in the email correction of
transaction_parse.py, lines 89-108. -/
structure TRow where
  teamMember : String
  firstName : String
  email : String
deriving DecidableEq

/-- The per-row email correction of transaction_parse.py, lines 98-108: a
row is touched only when the first word of `Team Member` (lowercased)
differs from the lowercased `First Name`, and the mapping file has a row
whose `Team member` equals the row's `Team Member` (first file row wins,
via `reset_index` + `loc[0]`). -/
def tpCorrectRow (m : List (String × String)) (r : TRow) : TRow :=
  if pyLower (firstWord r.teamMember) ≠ pyLower r.firstName then
    match lookupAssoc m r.teamMember with
    | some em => { r with email := em }
    | none => r
  else r

/-- transaction_parse.py, lines 89-108: when `df_mapping` is `None` (the
mapping file was missing, zero-sized, parsed to an empty table, or raised
`EmptyDataError` — see `tpLoadMapping`; any other read error propagates
instead of producing `None`) the correction loop is skipped entirely;
otherwise every row is corrected independently. -/
def tpCorrectEmails (mapping : Option (List (String × String))) (rows : List TRow) : List TRow :=
  match mapping with
  | none => rows
  | some m => rows.map (tpCorrectRow m)

/-- The possible outcomes of opening and parsing a correction-mapping
file, as the scripts can observe them: the file is absent or has size 0;
`pd.read_csv` raises `EmptyDataError`; `pd.read_csv` raises some other
exception (permission, encoding, parse, ...); or it parses to a list of
mapping rows. -/
inductive MappingReadOutcome (α : Type) where
  | fileAbsentOrZeroSize
  | raisesEmptyDataError
  | raisesOther (err : String)
  | parsed (rows : List α)

/-- The mapping-load step of transaction_parse.py, lines 74-87: a missing
or zero-sized file and a caught `EmptyDataError` both yield `df_mapping =
None`, a successful parse yields the rows (`None` when the parsed table is
empty), but any other exception from `pd.read_csv` is not caught — it
propagates and halts the run (`Except.error`). -/
def tpLoadMapping : MappingReadOutcome (String × String) →
    Except String (Option (List (String × String)))
  | MappingReadOutcome.fileAbsentOrZeroSize => Except.ok none
  | MappingReadOutcome.raisesEmptyDataError => Except.ok none
  | MappingReadOutcome.raisesOther err => Except.error err
  | MappingReadOutcome.parsed rows => Except.ok (if rows.isEmpty then none else some rows)

/-- The mapping-load step of google_upload.process_mv_sheets, lines
232-245: `except Exception` catches every failure, so any unavailable or
unreadable data_map.txt degrades to the empty mapping dict. -/
def guLoadMapping : MappingReadOutcome (String × String × String) →
    List (String × String × String)
  | MappingReadOutcome.parsed rows => rows
  | _ => []

/-- The transaction pipeline's mapping-load-then-correct step: the
correction runs only when the load did not raise; a propagating read
error aborts the step (and with it `main`). -/
def tpCorrectStep (out : MappingReadOutcome (String × String)) (rows : List TRow) :
    Except String (List TRow) :=
  match tpLoadMapping out with
  | Except.error e => Except.error e
  | Except.ok m => Except.ok (tpCorrectEmails m rows)

/-! ## C9 — membership-modification retry (`google_upload.modify_membership`) -/

/-- Outcome of one attempted `contactGroups().members().modify().execute()`
call: success, an HTTP 429 (`e.resp.status == 429`), or any other HTTP
error status. -/
inductive CallOutcome where
  | success
  | rateLimited
  | httpError (status : Nat)
deriving DecidableEq

/-- Observable behaviour of `modify_membership`: whether it returned a
result (`Except.ok true`), returned `None` after exhausting retries
(`Except.ok false`), or raised (`Except.error status`), together with the
sleep durations performed and the number of API calls made. -/
structure RetryTrace where
  result : Except Nat Bool
  sleeps : List Nat
  numCalls : Nat

/-- The `for i in range(max_retries)` loop of `modify_membership`
(google_upload.py, lines 69-87): `delay` starts at 1 and doubles after
each 429; a non-429 error is re-raised; falling off the loop returns
`None`. `respond i` is the outcome of the `i`-th attempt. -/
def retryLoop (respond : Nat → CallOutcome) :
    Nat → Nat → Nat → List Nat → Nat → RetryTrace
  | 0, _, _, sleeps, calls => { result := Except.ok false, sleeps := sleeps, numCalls := calls }
  | remaining + 1, i, delay, sleeps, calls =>
      match respond i with
      | CallOutcome.success =>
          { result := Except.ok true, sleeps := sleeps, numCalls := calls + 1 }
      | CallOutcome.rateLimited =>
          retryLoop respond remaining (i + 1) (delay * 2) (sleeps ++ [delay]) (calls + 1)
      | CallOutcome.httpError s =>
          { result := Except.error s, sleeps := sleeps, numCalls := calls + 1 }

/-- `modify_membership(service, resource, body, max_retries)`; the source's
default for `max_retries` is 5. -/
def modify_membership (respond : Nat → CallOutcome) (max_retries : Nat) : RetryTrace :=
  retryLoop respond max_retries 0 1 [] 0

/-! ## C2 — Contact Sync (`google_upload.import_to_google_contacts_for_service`)

The remote directory is modelled as the sync code observes it: contact
groups as (name, resource) pairs, and contacts keyed by their normalized
(stripped, lowercased) email, each carrying its resource name and the set
of group resources it belongs to. Fresh resource names are drawn from a
counter. Remote calls always succeed (failure handling is C9's concern);
`time.sleep` delays are ignored. -/

structure Contact where
  resource : Nat
  memberships : List Nat
deriving DecidableEq

structure RemoteState where
  groups : List (String × Nat)
  contacts : List (String × Contact)
  nextId : Nat
deriving DecidableEq

/-- One row of the contact CSV read by the sync (google_upload.py, lines
121-131). -/
structure CsvRow where
  firstName : String
  lastName : String
  email : String
  phone : String
  labels : String
deriving DecidableEq

/-- The managed labels (google_upload.py, line 96). -/
def targetGroups : List String := ["2025_Rider", "2025_Volunteer"]

/-- `contactGroups().members().modify(resourceNamesToAdd=[...])` as seen
from the contact side: add the group resource to the first contact stored
under `email`, if any and if not already present. -/
def addMembership : List (String × Contact) → String → Nat → List (String × Contact)
  | [], _, _ => []
  | (e, c) :: rest, email, g =>
      if e = email then
        (e, if g ∈ c.memberships then c else { c with memberships := c.memberships ++ [g] }) :: rest
      else
        (e, c) :: addMembership rest email g

/-- Store a contact under its email key (replacing any stale entry with
the same key). -/
def insertContact : List (String × Contact) → String → Contact → List (String × Contact)
  | [], email, c => [(email, c)]
  | (e, c1) :: rest, email, c =>
      if e = email then (e, c) :: rest else (e, c1) :: insertContact rest email c

/-- The `group_name_to_resource` dict built by iterating a group list
(later duplicates overwrite earlier ones). -/
def buildMap (gs : List (String × Nat)) : List (String × Nat) :=
  gs.foldl (fun m p => insertAssoc m p.1 p.2) []

/-- The deletion pass of google_upload.py, lines 104-115: every group
whose name is a target label is deleted (removing the corresponding
membership from every contact); the surviving groups seed the
name-to-resource dict. -/
def deleteTargetGroups (s : RemoteState) : RemoteState :=
  let delRes := (s.groups.filter (fun p => decide (p.1 ∈ targetGroups))).map (fun p => p.2)
  { s with
    groups := s.groups.filter (fun p => !decide (p.1 ∈ targetGroups))
    contacts := s.contacts.map (fun p =>
      (p.1, { p.2 with memberships := p.2.memberships.filter (fun g => !decide (g ∈ delRes)) })) }

/-- In-flight state of one sync run: the remote directory, the local
`contacts_cache` (fetched once, updated only on contact creation), the
`group_name_to_resource` dict, and the count of membership-modification
calls issued so far. -/
structure SyncState where
  remote : RemoteState
  cache : List (String × Contact)
  gmap : List (String × Nat)
  calls : Nat
deriving DecidableEq

/-- Group resolution for one row (google_upload.py, lines 133-169): reuse
the dict entry, else create a fresh group remotely and record it. (With
an error-free remote, the target-label branch at lines 134-158 and the
other-label branch at lines 159-169 coincide.) -/
def resolveGroup (st : SyncState) (label : String) : Nat × SyncState :=
  match lookupAssoc st.gmap label with
  | some g => (g, st)
  | none =>
      let g := st.remote.nextId
      (g, { st with
            remote := { st.remote with
                        groups := st.remote.groups ++ [(label, g)]
                        nextId := st.remote.nextId + 1 }
            gmap := insertAssoc st.gmap label g })

/-- Contact handling for one row (google_upload.py, lines 171-206): an
already-cached contact is added to the group only when the cached person
is not yet a member; otherwise a contact is created remotely, added to
the group, and recorded in the cache (without the new membership, as the
`createContact` result). -/
def syncContact (st : SyncState) (email : String) (g : Nat) : SyncState :=
  match lookupAssoc st.cache email with
  | some c =>
      if g ∈ c.memberships then st
      else
        { st with
          remote := { st.remote with contacts := addMembership st.remote.contacts email g }
          calls := st.calls + 1 }
  | none =>
      let newC : Contact := { resource := st.remote.nextId, memberships := [] }
      { st with
        remote := { st.remote with
                    contacts := addMembership (insertContact st.remote.contacts email newC) email g
                    nextId := st.remote.nextId + 1 }
        cache := insertContact st.cache email newC
        calls := st.calls + 1 }

/-- Processing of one CSV row (google_upload.py, lines 129-208). -/
def processRow (st : SyncState) (row : CsvRow) : SyncState :=
  let st1 := resolveGroup st (pyStrip row.labels)
  syncContact st1.2 (pyLower (pyStrip row.email)) st1.1

/-- `import_to_google_contacts_for_service(csv_path, service)`
(google_upload.py, lines 89-208): delete the target groups, fetch the
groups and the contact cache (skipping empty emails, as `get_all_contacts`
does), then process every CSV row. Returns the final remote state and the
number of membership-modification calls performed. -/
def runService (rows : List CsvRow) (s : RemoteState) : RemoteState × Nat :=
  let s1 := deleteTargetGroups s
  let st0 : SyncState :=
    { remote := s1
      cache := s1.contacts.filter (fun p => !decide (p.1 = ""))
      gmap := buildMap s1.groups
      calls := 0 }
  let stf := rows.foldl processRow st0
  (stf.remote, stf.calls)

/-- A CSV row is settled in a sync state when its label resolves in the
group dict and the cached contact under its email is already a member. -/
def RowSettled (st : SyncState) (r : CsvRow) : Prop :=
  ∃ g, lookupAssoc st.gmap (pyStrip r.labels) = some g ∧
    ∃ c, lookupAssoc st.cache (pyLower (pyStrip r.email)) = some c ∧ g ∈ c.memberships

/-- A CSV row is done in a sync state when its label resolves in the group
dict and the remote contact under its email is a member of that group. -/
def RowDone (st : SyncState) (r : CsvRow) : Prop :=
  ∃ g, lookupAssoc st.gmap (pyStrip r.labels) = some g ∧
    ∃ c, lookupAssoc st.remote.contacts (pyLower (pyStrip r.email)) = some c ∧ g ∈ c.memberships

/-- A row whose (stripped) label is not a managed target label and whose
normalized email is non-empty. -/
def GoodRow (r : CsvRow) : Prop :=
  pyStrip r.labels ∉ targetGroups ∧ pyLower (pyStrip r.email) ≠ ""

/-- Invariant of the sync loop relating the remote directory, the local
contact cache, and the group dict. -/
structure SyncInv (st : SyncState) : Prop where
  cache_no_empty : lookupAssoc st.cache "" = none
  groups_no_target : ∀ p ∈ st.remote.groups, p.1 ∉ targetGroups
  gmap_eq : st.gmap = buildMap st.remote.groups
  keys_sync : ∀ e, e ≠ "" →
    (lookupAssoc st.cache e = none ↔ lookupAssoc st.remote.contacts e = none)
  cache_sub : ∀ e c, lookupAssoc st.cache e = some c →
    ∃ d, lookupAssoc st.remote.contacts e = some d ∧ c.memberships ⊆ d.memberships

/-! ## Helper lemmas on the string primitives and association lists -/

theorem head?_dropWhile_not (p : Char → Bool) (l : List Char) (a : Char)
    (h : (l.dropWhile p).head? = some a) : p a = false := by
  induction l with
  | nil => simp [List.dropWhile] at h
  | cons c rest ih =>
    rw [List.dropWhile_cons] at h
    cases hpc : p c with
    | true => rw [hpc] at h; simp at h; exact ih h
    | false => rw [hpc] at h; simp at h; rw [← h]; exact hpc

theorem dropWhile_eq_self_of_head? (p : Char → Bool) (l : List Char)
    (h : ∀ a, l.head? = some a → p a = false) : l.dropWhile p = l := by
  cases l with
  | nil => rfl
  | cons c rest => rw [List.dropWhile_cons, h c rfl]; simp

theorem stripList_idem (l : List Char) : stripList (stripList l) = stripList l := by
  unfold stripList
  set d1 := l.dropWhile isSpaceChar with hd1
  set d2 := d1.reverse.dropWhile isSpaceChar with hd2
  have h1 : d2.reverse.dropWhile isSpaceChar = d2.reverse := by
    apply dropWhile_eq_self_of_head?
    intro a ha
    rw [List.head?_reverse] at ha
    have hne : d2 ≠ [] := by
      intro he; rw [he] at ha; simp at ha
    obtain ⟨t, ht⟩ := List.dropWhile_suffix (l := d1.reverse) isSpaceChar
    have h2 : d1.reverse.getLast? = some a := by
      rw [← ht, List.getLast?_append_of_ne_nil t hne]; exact ha
    rw [List.getLast?_reverse] at h2
    exact head?_dropWhile_not isSpaceChar l a h2
  rw [h1, List.reverse_reverse, hd2, List.dropWhile_idempotent]

theorem pyStrip_idem (s : String) : pyStrip (pyStrip s) = pyStrip s :=
  congrArg String.mk (stripList_idem s.data)

theorem lookupAssoc_mem {α : Type} (m : List (String × α)) (k : String) (v : α)
    (h : lookupAssoc m k = some v) : ∃ k1, (k1, v) ∈ m := by
  induction m with
  | nil => simp [lookupAssoc] at h
  | cons p rest ih =>
    obtain ⟨k1, v1⟩ := p
    rw [lookupAssoc] at h
    by_cases hk : k1 = k
    · rw [if_pos hk] at h
      have hv := Option.some.inj h
      refine ⟨k1, ?_⟩
      rw [← hv]
      exact List.mem_cons_self _ _
    · rw [if_neg hk] at h
      obtain ⟨k2, hk2⟩ := ih h
      exact ⟨k2, List.mem_cons_of_mem _ hk2⟩

theorem insertAssoc_values {α : Type} (P : α → Prop) (m : List (String × α)) (k : String) (v : α)
    (hm : ∀ kv ∈ m, P kv.2) (hv : P v) : ∀ kv ∈ insertAssoc m k v, P kv.2 := by
  induction m with
  | nil =>
    intro kv hkv
    simp [insertAssoc] at hkv
    rw [hkv]
    exact hv
  | cons p rest ih =>
    obtain ⟨k1, v1⟩ := p
    intro kv hkv
    rw [insertAssoc] at hkv
    by_cases hk : k1 = k
    · rw [if_pos hk] at hkv
      rcases List.mem_cons.mp hkv with h1 | h1
      · rw [h1]; exact hv
      · exact hm kv (List.mem_cons_of_mem _ h1)
    · rw [if_neg hk] at hkv
      rcases List.mem_cons.mp hkv with h1 | h1
      · rw [h1]; exact hm (k1, v1) (List.mem_cons_self _ _)
      · exact ih (fun kv hkv => hm kv (List.mem_cons_of_mem _ hkv)) kv h1

theorem buildMappingDict_values (raw : List (String × String × String)) :
    ∀ kv ∈ buildMappingDict raw,
      pyStrip kv.2.incorrect = kv.2.incorrect ∧ pyStrip kv.2.correct = kv.2.correct := by
  have key : ∀ (rs : List (String × String × String)) (m : List (String × MapEntry)),
      (∀ kv ∈ m, pyStrip kv.2.incorrect = kv.2.incorrect ∧ pyStrip kv.2.correct = kv.2.correct) →
      ∀ kv ∈ rs.foldl
          (fun m r => insertAssoc m (pyStrip r.1) (⟨pyStrip r.2.1, pyStrip r.2.2⟩ : MapEntry)) m,
        pyStrip kv.2.incorrect = kv.2.incorrect ∧ pyStrip kv.2.correct = kv.2.correct := by
    intro rs
    induction rs with
    | nil => intro m hm; simpa using hm
    | cons r rest ih =>
      intro m hm
      simp only [List.foldl_cons]
      exact ih _ (insertAssoc_values
        (fun ent => pyStrip ent.incorrect = ent.incorrect ∧ pyStrip ent.correct = ent.correct)
        m (pyStrip r.1) (⟨pyStrip r.2.1, pyStrip r.2.2⟩ : MapEntry) hm
        ⟨pyStrip_idem _, pyStrip_idem _⟩)
  exact key raw [] (by simp)

/-! ## C4 — sheet-name label sanitization -/

/-- C4 counterexample: the claim says every derived sheet label contains
none of `[ ] : * ? \ /`; but `format_data` only replaces `/`, so a raw
title whose tail after the last `-` contains `:` yields a label
containing the forbidden `:`. -/
theorem C4_sheet_label_counterexample :
    ':' ∈ format_data_sheet_name "2025 Ride: Advanced".data ∧ ':' ∈ excelForbidden := by
  constructor
  · decide
  · decide

/-- C4 (amended): every sheet label derived by `format_data` has length at
most 31 and contains no `/` (which is replaced by `_`), but is not
sanitized against the remaining forbidden characters; the three fixed
labels of `description_to_sheet_map` satisfy the full invariant. -/
theorem C4_sheet_label_amended :
    (∀ title : List Char, (format_data_sheet_name title).length ≤ 31 ∧
      '/' ∉ format_data_sheet_name title) ∧
    (∀ p ∈ description_to_sheet_map, p.2.length ≤ 31 ∧ ∀ c ∈ p.2.data, c ∉ excelForbidden) := by
  constructor
  · intro title
    constructor
    · exact List.length_take_le 31 _
    · intro hmem
      obtain ⟨c, hc, hcc⟩ := List.mem_map.mp (List.mem_of_mem_take hmem)
      cases h : (c == '/') with
      | true => rw [h] at hcc; simp at hcc
      | false => rw [h] at hcc; simp at hcc; rw [hcc] at h; simp at h
  · decide

/-- C4 witness: the amended theorem applied to the `Volunteer` label of
`description_to_sheet_map`. -/
theorem C4_sheet_label_witness :
    ("Volunteer" : String).length ≤ 31 ∧ 'V' ∉ excelForbidden := by
  have h := C4_sheet_label_amended.2
    ("2025 Ride for Missing Children - MV Volunteer", "Volunteer") (by decide)
  exact ⟨h.1, h.2 'V' (by decide)⟩

/-! ## C5 — report writing is not atomic -/

/-- C5 counterexample: a failure during the single direct `wb.save` of
`format_data` leaves a partial file at the final (usable) report path,
contradicting the claim that no partial file is left at a usable path. -/
theorem C5_atomic_write_counterexample :
    lookupAssoc (runStepsCrash format_data_write_steps 0 []) "GiveButterReport.xlsx" =
      some FileState.incomplete := by decide

/-- C5 (amended): both report writers perform exactly one save directly at
the final output path — no temporary path and no rename. On success the
complete file is at the output path; a failure during the save leaves a
partial file at that same final path. -/
theorem C5_atomic_write_amended (t : Nat) :
    runSteps format_data_write_steps [] = [("GiveButterReport.xlsx", FileState.complete)] ∧
    runStepsCrash format_data_write_steps 0 [] =
      [("GiveButterReport.xlsx", FileState.incomplete)] ∧
    (∀ step ∈ format_data_write_steps, ∀ src dst, step ≠ WriteStep.rename src dst) ∧
    runSteps (transaction_master_write_steps t) [] =
      [("Rider_Volunteer_MasterList_" ++ toString t ++ ".xlsx", FileState.complete)] ∧
    runStepsCrash (transaction_master_write_steps t) 0 [] =
      [("Rider_Volunteer_MasterList_" ++ toString t ++ ".xlsx", FileState.incomplete)] ∧
    (∀ step ∈ transaction_master_write_steps t, ∀ src dst, step ≠ WriteStep.rename src dst) := by
  refine ⟨by decide, by decide, ?_, rfl, rfl, ?_⟩
  · intro step hstep src dst
    simp only [format_data_write_steps, List.mem_singleton] at hstep
    rw [hstep]
    simp
  · intro step hstep src dst
    simp only [transaction_master_write_steps, List.mem_singleton] at hstep
    rw [hstep]
    simp

/-- C5 witness: the amended theorem applied to the single step of the
transaction master-list writer at timestamp 0. -/
theorem C5_atomic_write_witness :
    WriteStep.save ("Rider_Volunteer_MasterList_" ++ toString 0 ++ ".xlsx") ≠
      WriteStep.rename "tmp" "Rider_Volunteer_MasterList_0.xlsx" :=
  (C5_atomic_write_amended 0).2.2.2.2.2
    (WriteStep.save ("Rider_Volunteer_MasterList_" ++ toString 0 ++ ".xlsx"))
    (by simp [transaction_master_write_steps]) "tmp" "Rider_Volunteer_MasterList_0.xlsx"

/-! ## C6 — Column Reconciler replace-iff behaviour -/

/-- C6: the contact builder replaces a row's email with a mapping entry's
correct value exactly when the (stripped) ticket number has an entry and
the (stripped) email equals that entry's recorded incorrect value; in
every other case the email is passed through as read from the sheet. -/
theorem C6_reconciler_replace_iff (raw : List (String × String × String))
    (sheet : String) (row : MvRow) :
    (∀ ent, lookupAssoc (buildMappingDict raw) (pyStrip row.ticketNumber) = some ent →
      ((pyStrip row.email = ent.incorrect →
          (mkContact (buildMappingDict raw) sheet row).emailValue = ent.correct) ∧
       (pyStrip row.email ≠ ent.incorrect →
          (mkContact (buildMappingDict raw) sheet row).emailValue = pyStrip row.email))) ∧
    (lookupAssoc (buildMappingDict raw) (pyStrip row.ticketNumber) = none →
      (mkContact (buildMappingDict raw) sheet row).emailValue = pyStrip row.email) := by
  constructor
  · intro ent h
    constructor
    · intro he
      simp [mkContact, h, he]
    · intro he
      simp [mkContact, h, he]
  · intro h
    simp [mkContact, h]

/-- C6 witness: the spec's concrete scenario — entry
`(T100, jon@old.com, jon@new.com)` rewrites a T100 row with email
`jon@old.com` and leaves a T100 row with email `other@x.com` unchanged. -/
theorem C6_reconciler_witness :
    (mkContact (buildMappingDict [("T100", "jon@old.com", "jon@new.com")]) "MV Volunteer"
        ⟨"T100", "jon", "lee", "jon@old.com", "555"⟩).emailValue = "jon@new.com" ∧
    (mkContact (buildMappingDict [("T100", "jon@old.com", "jon@new.com")]) "MV Volunteer"
        ⟨"T100", "jon", "lee", "other@x.com", "555"⟩).emailValue = "other@x.com" := by
  constructor
  · exact ((C6_reconciler_replace_iff [("T100", "jon@old.com", "jon@new.com")] "MV Volunteer"
      ⟨"T100", "jon", "lee", "jon@old.com", "555"⟩).1 ⟨"jon@old.com", "jon@new.com"⟩
      (by decide)).1 (by decide)
  · have h := ((C6_reconciler_replace_iff [("T100", "jon@old.com", "jon@new.com")] "MV Volunteer"
      ⟨"T100", "jon", "lee", "other@x.com", "555"⟩).1 ⟨"jon@old.com", "jon@new.com"⟩
      (by decide)).2 (by decide)
    exact h.trans (by decide)

/-! ## C7 — unavailable mapping source -/

/-- C7 counterexample: the claim says an unreadable mapping file leaves
the pipeline proceeding without error, but transaction_parse catches only
`pd.errors.EmptyDataError` — an existing non-empty mapping file whose
read raises anything else (here a `UnicodeDecodeError`) propagates the
exception: the step errors out instead of returning the rows unchanged. -/
theorem C7_no_mapping_counterexample :
    tpCorrectStep (MappingReadOutcome.raisesOther "UnicodeDecodeError")
      [⟨"Jo Lee", "jo", "jo@x.com"⟩] = Except.error "UnicodeDecodeError" ∧
    tpCorrectStep (MappingReadOutcome.raisesOther "UnicodeDecodeError")
      [⟨"Jo Lee", "jo", "jo@x.com"⟩] ≠ Except.ok [⟨"Jo Lee", "jo", "jo@x.com"⟩] := by
  constructor
  · rfl
  · intro h
    exact Except.noConfusion h

/-- C7 (amended): in google_upload, any unavailable mapping source
(missing, empty, or unreadable — every read exception is caught) makes
the Column Reconciler a no-op: the builder produces exactly what the
builder without a reconciliation step produces. In transaction_parse the
no-op holds when the mapping file is missing or zero-sized, raises
`EmptyDataError`, or parses to an empty table — the rows pass through
unchanged; but a read failing with any other error propagates that
exception and halts the pipeline, because only `EmptyDataError` is
caught. -/
theorem C7_no_mapping_amended :
    (∀ out : MappingReadOutcome (String × String × String),
      (∀ rows, out ≠ MappingReadOutcome.parsed rows) →
      ∀ (sheet : String) (row : MvRow),
        mkContact (buildMappingDict (guLoadMapping out)) sheet row =
          mkContactNoReconcile sheet row) ∧
    (∀ rows : List TRow,
      tpCorrectStep MappingReadOutcome.fileAbsentOrZeroSize rows = Except.ok rows ∧
      tpCorrectStep MappingReadOutcome.raisesEmptyDataError rows = Except.ok rows ∧
      tpCorrectStep (MappingReadOutcome.parsed []) rows = Except.ok rows) ∧
    (∀ (err : String) (rows : List TRow),
      tpCorrectStep (MappingReadOutcome.raisesOther err) rows = Except.error err) := by
  refine ⟨?_, fun rows => ⟨rfl, rfl, rfl⟩, fun err rows => rfl⟩
  intro out hout sheet row
  cases out with
  | fileAbsentOrZeroSize => rfl
  | raisesEmptyDataError => rfl
  | raisesOther err => rfl
  | parsed rows => exact absurd rfl (hout rows)

/-- C7 witness: the amended theorem applied to an unreadable data_map.txt
on the google_upload side — the produced contact equals the one built
with no reconciliation step. -/
theorem C7_no_mapping_witness :
    mkContact (buildMappingDict (guLoadMapping (MappingReadOutcome.raisesOther "boom")))
      "MV Volunteer" ⟨"T1", "jo", "lee", "jo@x.com", "5"⟩ =
      mkContactNoReconcile "MV Volunteer" ⟨"T1", "jo", "lee", "jo@x.com", "5"⟩ :=
  C7_no_mapping_amended.1 (MappingReadOutcome.raisesOther "boom")
    (fun _ h => MappingReadOutcome.noConfusion h)
    "MV Volunteer" ⟨"T1", "jo", "lee", "jo@x.com", "5"⟩

/-! ## C8 — Column Reconciler idempotence -/

theorem reconcileEmailCell_restrip (md : List (String × MapEntry))
    (hmd : ∀ kv ∈ md, pyStrip kv.2.incorrect = kv.2.incorrect ∧
      pyStrip kv.2.correct = kv.2.correct)
    (tn e : String) (he : pyStrip e = e) :
    reconcileEmailCell md tn (pyStrip (reconcileEmailCell md tn e)) =
      reconcileEmailCell md tn e := by
  unfold reconcileEmailCell
  cases h : lookupAssoc md tn with
  | none => rw [he]
  | some ent =>
    obtain ⟨k1, hk⟩ := lookupAssoc_mem md tn ent h
    obtain ⟨hinc, hcor⟩ := hmd (k1, ent) hk
    by_cases he2 : e = ent.incorrect
    · simp [he2, hcor]
    · simp [he2, he]

theorem reconcileRow_idem (md : List (String × MapEntry))
    (hmd : ∀ kv ∈ md, pyStrip kv.2.incorrect = kv.2.incorrect ∧
      pyStrip kv.2.correct = kv.2.correct)
    (r : MvRow) : reconcileRow md (reconcileRow md r) = reconcileRow md r := by
  unfold reconcileRow
  simp only []
  congr 1
  exact reconcileEmailCell_restrip md hmd (pyStrip r.ticketNumber) (pyStrip r.email)
    (pyStrip_idem r.email)

/-- C8: applying the Column Reconciler twice with the same mapping file
yields the same table as applying it once — the mapping dict's values are
whitespace-stripped, so a corrected cell re-reconciles to itself. -/
theorem C8_reconciler_idempotent (raw : List (String × String × String)) (rows : List MvRow) :
    reconcileTable (buildMappingDict raw) (reconcileTable (buildMappingDict raw) rows) =
      reconcileTable (buildMappingDict raw) rows := by
  unfold reconcileTable
  rw [List.map_map]
  apply List.map_congr_left
  intro r hr
  exact reconcileRow_idem (buildMappingDict raw) (buildMappingDict_values raw) r

/-! ## C10 — the mapping can influence only the email field -/

/-- C10: every non-email field of the produced contact row (first name,
last name, phone, labels, and the two constant label columns) is the same
function of the source row and sheet name under any two mapping dicts. -/
theorem C10_mapping_frame (md md2 : List (String × MapEntry)) (sheet : String) (row : MvRow) :
    (mkContact md sheet row).firstName = (mkContact md2 sheet row).firstName ∧
    (mkContact md sheet row).lastName = (mkContact md2 sheet row).lastName ∧
    (mkContact md sheet row).phoneValue = (mkContact md2 sheet row).phoneValue ∧
    (mkContact md sheet row).labels = (mkContact md2 sheet row).labels ∧
    (mkContact md sheet row).emailLabel = (mkContact md2 sheet row).emailLabel ∧
    (mkContact md sheet row).phoneLabel = (mkContact md2 sheet row).phoneLabel :=
  ⟨rfl, rfl, rfl, rfl, rfl, rfl⟩

/-! ## C9 — retry/backoff behaviour of `modify_membership` -/

theorem geom_sleeps (delay rem : Nat) :
    delay :: (List.range rem).map (fun k => delay * 2 * 2 ^ k) =
      (List.range (rem + 1)).map (fun k => delay * 2 ^ k) := by
  rw [List.range_succ_eq_map]
  simp only [List.map_cons, List.map_map, pow_zero, mul_one]
  congr 1
  apply List.map_congr_left
  intro k hk
  simp only [Function.comp_apply, Nat.succ_eq_add_one, pow_succ]
  ring

theorem retryLoop_all_rate_limited (respond : Nat → CallOutcome) :
    ∀ (remaining i delay : Nat) (sleeps : List Nat) (calls : Nat),
      (∀ k, k < remaining → respond (i + k) = CallOutcome.rateLimited) →
      retryLoop respond remaining i delay sleeps calls =
        { result := Except.ok false,
          sleeps := sleeps ++ (List.range remaining).map (fun k => delay * 2 ^ k),
          numCalls := calls + remaining } := by
  intro remaining
  induction remaining with
  | zero =>
    intro i delay sleeps calls h
    simp [retryLoop]
  | succ rem ih =>
    intro i delay sleeps calls h
    have h0 : respond i = CallOutcome.rateLimited := by simpa using h 0 (Nat.succ_pos rem)
    simp only [retryLoop, h0]
    rw [ih (i + 1) (delay * 2) (sleeps ++ [delay]) (calls + 1)
        (fun k hk => by
          have heq : i + 1 + k = i + (k + 1) := by omega
          rw [heq]
          exact h (k + 1) (by omega))]
    simp only [RetryTrace.mk.injEq]
    refine ⟨trivial, ?_, by omega⟩
    rw [List.append_assoc, List.singleton_append, geom_sleeps]

theorem retryLoop_success_after (respond : Nat → CallOutcome) :
    ∀ (n remaining i delay : Nat) (sleeps : List Nat) (calls : Nat),
      n < remaining →
      (∀ k, k < n → respond (i + k) = CallOutcome.rateLimited) →
      respond (i + n) = CallOutcome.success →
      retryLoop respond remaining i delay sleeps calls =
        { result := Except.ok true,
          sleeps := sleeps ++ (List.range n).map (fun k => delay * 2 ^ k),
          numCalls := calls + n + 1 } := by
  intro n
  induction n with
  | zero =>
    intro remaining i delay sleeps calls hlt hrl hs
    cases remaining with
    | zero => omega
    | succ rem =>
      have h0 : respond i = CallOutcome.success := by simpa using hs
      simp only [retryLoop, h0]
      simp
  | succ m ih =>
    intro remaining i delay sleeps calls hlt hrl hs
    cases remaining with
    | zero => omega
    | succ rem =>
      have h0 : respond i = CallOutcome.rateLimited := by
        simpa using hrl 0 (Nat.succ_pos m)
      simp only [retryLoop, h0]
      rw [ih rem (i + 1) (delay * 2) (sleeps ++ [delay]) (calls + 1) (by omega)
          (fun k hk => by
            have heq : i + 1 + k = i + (k + 1) := by omega
            rw [heq]
            exact hrl (k + 1) (by omega))
          (by
            have heq : i + 1 + m = i + (m + 1) := by omega
            rw [heq]
            exact hs)]
      simp only [RetryTrace.mk.injEq]
      refine ⟨trivial, ?_, by omega⟩
      rw [List.append_assoc, List.singleton_append, geom_sleeps]

theorem retryLoop_error_after (respond : Nat → CallOutcome) :
    ∀ (n remaining i delay : Nat) (sleeps : List Nat) (calls s : Nat),
      n < remaining →
      (∀ k, k < n → respond (i + k) = CallOutcome.rateLimited) →
      respond (i + n) = CallOutcome.httpError s →
      retryLoop respond remaining i delay sleeps calls =
        { result := Except.error s,
          sleeps := sleeps ++ (List.range n).map (fun k => delay * 2 ^ k),
          numCalls := calls + n + 1 } := by
  intro n
  induction n with
  | zero =>
    intro remaining i delay sleeps calls s hlt hrl hs
    cases remaining with
    | zero => omega
    | succ rem =>
      have h0 : respond i = CallOutcome.httpError s := by simpa using hs
      simp only [retryLoop, h0]
      simp
  | succ m ih =>
    intro remaining i delay sleeps calls s hlt hrl hs
    cases remaining with
    | zero => omega
    | succ rem =>
      have h0 : respond i = CallOutcome.rateLimited := by
        simpa using hrl 0 (Nat.succ_pos m)
      simp only [retryLoop, h0]
      rw [ih rem (i + 1) (delay * 2) (sleeps ++ [delay]) (calls + 1) s (by omega)
          (fun k hk => by
            have heq : i + 1 + k = i + (k + 1) := by omega
            rw [heq]
            exact hrl (k + 1) (by omega))
          (by
            have heq : i + 1 + m = i + (m + 1) := by omega
            rw [heq]
            exact hs)]
      simp only [RetryTrace.mk.injEq]
      refine ⟨trivial, ?_, by omega⟩
      rw [List.append_assoc, List.singleton_append, geom_sleeps]

/-- C9: a 429 response to a membership modification is retried with
exponential backoff — the sleep before retry `k` is `2 ^ k` seconds,
starting at the base delay 1 and doubling each attempt — up to 5 attempts
in total; after 5 straight 429s the function returns `None` (the failure
is only logged, so the caller's loop continues with the next operation);
a success after `n` 429s takes exactly `n + 1` calls; and a non-429 HTTP
error is raised immediately, ending the attempt sequence at that call
with no further sleep. -/
theorem C9_retry_backoff (respond : Nat → CallOutcome) :
    ((∀ k, k < 5 → respond k = CallOutcome.rateLimited) →
      modify_membership respond 5 =
        { result := Except.ok false, sleeps := [1, 2, 4, 8, 16], numCalls := 5 }) ∧
    (∀ n, n < 5 → (∀ k, k < n → respond k = CallOutcome.rateLimited) →
      respond n = CallOutcome.success →
      modify_membership respond 5 =
        { result := Except.ok true, sleeps := (List.range n).map (fun k => 2 ^ k),
          numCalls := n + 1 }) ∧
    (∀ n s, n < 5 → (∀ k, k < n → respond k = CallOutcome.rateLimited) →
      respond n = CallOutcome.httpError s →
      modify_membership respond 5 =
        { result := Except.error s, sleeps := (List.range n).map (fun k => 2 ^ k),
          numCalls := n + 1 }) := by
  refine ⟨?_, ?_, ?_⟩
  · intro h
    rw [modify_membership, retryLoop_all_rate_limited respond 5 0 1 [] 0
      (fun k hk => by simpa using h k hk)]
    rfl
  · intro n hn hrl hs
    rw [modify_membership, retryLoop_success_after respond n 5 0 1 [] 0 hn
      (fun k hk => by simpa using hrl k hk) (by simpa using hs)]
    simp only [RetryTrace.mk.injEq, List.nil_append]
    refine ⟨trivial, List.map_congr_left fun k hk => one_mul _, by omega⟩
  · intro n s hn hrl hs
    rw [modify_membership, retryLoop_error_after respond n 5 0 1 [] 0 s hn
      (fun k hk => by simpa using hrl k hk) (by simpa using hs)]
    simp only [RetryTrace.mk.injEq, List.nil_append]
    refine ⟨trivial, List.map_congr_left fun k hk => one_mul _, by omega⟩

/-- C9 witness: the three behaviours at concrete outcome sequences — five
429s give delays 1,2,4,8,16 and a skipped operation; two 429s then a
success give three calls; an immediate 500 raises after one call. -/
theorem C9_retry_backoff_witness :
    modify_membership (fun _ => CallOutcome.rateLimited) 5 =
      { result := Except.ok false, sleeps := [1, 2, 4, 8, 16], numCalls := 5 } ∧
    modify_membership (fun k => if k < 2 then CallOutcome.rateLimited else CallOutcome.success) 5 =
      { result := Except.ok true, sleeps := [1, 2], numCalls := 3 } ∧
    modify_membership (fun k => if k = 0 then CallOutcome.httpError 500 else CallOutcome.success) 5 =
      { result := Except.error 500, sleeps := [], numCalls := 1 } := by
  refine ⟨(C9_retry_backoff _).1 (fun k hk => rfl), ?_, ?_⟩
  · have h := (C9_retry_backoff
      (fun k => if k < 2 then CallOutcome.rateLimited else CallOutcome.success)).2.1 2
      (by omega) (fun k hk => by simp [hk]) (by simp)
    exact h.trans rfl
  · have h := (C9_retry_backoff
      (fun k => if k = 0 then CallOutcome.httpError 500 else CallOutcome.success)).2.2 0 500
      (by omega) (fun k hk => by omega) (by simp)
    exact h.trans rfl

/-! ## C1 — Change Detector theorems -/

theorem mostRecent_spec (priors : List Snapshot) (h : priors ≠ []) :
    ∃ prev, mostRecent priors = some prev ∧ prev ∈ priors ∧
      ∀ f ∈ priors, f.ctime ≤ prev.ctime := by
  cases priors with
  | nil => exact absurd rfl h
  | cons a rest =>
    have key : ∀ (rs : List Snapshot) (a : Snapshot),
        (rs.foldl (fun best g => if g.ctime > best.ctime then g else best) a = a ∨
          rs.foldl (fun best g => if g.ctime > best.ctime then g else best) a ∈ rs) ∧
        a.ctime ≤ (rs.foldl (fun best g => if g.ctime > best.ctime then g else best) a).ctime ∧
        ∀ f ∈ rs, f.ctime ≤ (rs.foldl (fun best g => if g.ctime > best.ctime then g else best) a).ctime := by
      intro rs
      induction rs with
      | nil => exact fun a => ⟨Or.inl rfl, Nat.le_refl _, by simp⟩
      | cons b rest ih =>
        intro a
        simp only [List.foldl_cons]
        by_cases hba : b.ctime > a.ctime
        · rw [if_pos hba]
          obtain ⟨hmem, hle, hall⟩ := ih b
          refine ⟨?_, Nat.le_trans (Nat.le_of_lt hba) hle, ?_⟩
          · rcases hmem with hm | hm
            · exact Or.inr (by rw [hm]; exact List.mem_cons_self _ _)
            · exact Or.inr (List.mem_cons_of_mem _ hm)
          · intro f hf
            rcases List.mem_cons.mp hf with hf | hf
            · rw [hf]; exact hle
            · exact hall f hf
        · rw [if_neg hba]
          obtain ⟨hmem, hle, hall⟩ := ih a
          refine ⟨?_, hle, ?_⟩
          · rcases hmem with hm | hm
            · exact Or.inl hm
            · exact Or.inr (List.mem_cons_of_mem _ hm)
          · intro f hf
            rcases List.mem_cons.mp hf with hf | hf
            · rw [hf]; exact Nat.le_trans (Nat.le_of_not_lt hba) hle
            · exact hall f hf
    obtain ⟨hmem, hle, hall⟩ := key rest a
    refine ⟨_, rfl, ?_, ?_⟩
    · rcases hmem with hm | hm
      · rw [hm]; exact List.mem_cons_self _ _
      · exact List.mem_cons_of_mem _ hm
    · intro f hf
      rcases List.mem_cons.mp hf with hf | hf
      · rw [hf]; exact hle
      · exact hall f hf

theorem comparisonRows_mem (df prev : List CsvDataRow) (r : CsvDataRow) :
    r ∈ comparisonRows df prev ↔ df.count r = 1 ∧ prev.count r = 0 := by
  unfold comparisonRows
  rw [List.mem_filter]
  constructor
  · rintro ⟨hmem, hcount⟩
    rw [beq_iff_eq, List.count_append, List.count_append] at hcount
    omega
  · rintro ⟨h1, h2⟩
    have hr : r ∈ df := List.count_pos_iff.mp (by omega)
    refine ⟨by simp [hr], ?_⟩
    rw [beq_iff_eq, List.count_append, List.count_append]
    omega

/-- C1 counterexample: with an empty new table and a prior snapshot
holding one row, the symmetric difference is that prior-only row, yet the
code reports no changes — prior-only rows never reach the changes file,
because each prior row appears twice in the concatenation and
`drop_duplicates(keep=False)` removes it. -/
theorem C1_change_detector_counterexample :
    save_and_compare_df [] [⟨0, [["r"]]⟩] = none ∧
    specSymmDiff [] [["r"]] = [["r"]] := by
  exact ⟨rfl, rfl⟩

/-- C1 (amended): for a non-empty set of prior snapshots the detector
selects the (first) prior snapshot of maximal creation time and persists a
changes file exactly when some row of the new table occurs exactly once in
the new table and not at all in that prior snapshot; the changes file
contains precisely those rows. Rows present only in the prior snapshot,
and new rows duplicated within the new table, are never reported. -/
theorem C1_change_detector_amended (df : List CsvDataRow) (priors : List Snapshot)
    (h : priors ≠ []) :
    ∃ prev, mostRecent priors = some prev ∧ prev ∈ priors ∧
      (∀ f ∈ priors, f.ctime ≤ prev.ctime) ∧
      (∀ r, r ∈ comparisonRows df prev.rows ↔ df.count r = 1 ∧ prev.rows.count r = 0) ∧
      save_and_compare_df df priors =
        (if comparisonRows df prev.rows = [] then none
         else some (comparisonRows df prev.rows)) := by
  obtain ⟨prev, h1, h2, h3⟩ := mostRecent_spec priors h
  refine ⟨prev, h1, h2, h3, fun r => comparisonRows_mem df prev.rows r, ?_⟩
  unfold save_and_compare_df
  rw [h1]
  by_cases hc : comparisonRows df prev.rows = []
  · simp [hc]
  · simp [hc, List.isEmpty_iff]

/-- C1 witness: the amended theorem applied to a one-row new table and a
single prior snapshot with a different row — the changes file holds
exactly the new row. -/
theorem C1_change_detector_witness :
    save_and_compare_df [["b"]] [⟨5, [["a"]]⟩] = some [["b"]] := by
  obtain ⟨prev, h1, _, _, _, h5⟩ :=
    C1_change_detector_amended [["b"]] [⟨5, [["a"]]⟩] (by simp)
  have hp := Option.some.inj
    ((rfl : mostRecent [⟨5, [["a"]]⟩] = some ⟨5, [["a"]]⟩).symm.trans h1)
  rw [← hp] at h5
  exact h5.trans (by decide)

/-! ## C3 — pagination theorems -/

theorem members_loop_run (api : Nat → PageResp) (N : Nat)
    (hapi : ∀ p, (api p).meta.current_page = p ∧ (api p).meta.last_page = N) :
    ∀ (n fuel k : Nat) (req acc : List Nat), k + n = N + 1 → n < fuel →
      get_campaign_members_loop api fuel k req acc =
        some (req ++ (List.range (n + 1)).map (fun j => k + j),
              acc ++ ((List.range (n + 1)).map (fun j => (api (k + j)).data)).flatten) := by
  intro n
  induction n with
  | zero =>
    intro fuel k req acc hk hf
    cases fuel with
    | zero => omega
    | succ f =>
      simp only [get_campaign_members_loop]
      rw [if_neg (by rw [(hapi k).1, (hapi k).2]; omega)]
      simp [show List.range 1 = [0] from rfl]
  | succ m ih =>
    intro fuel k req acc hk hf
    cases fuel with
    | zero => omega
    | succ f =>
      simp only [get_campaign_members_loop]
      rw [if_pos (by rw [(hapi k).1, (hapi k).2]; omega)]
      rw [ih f (k + 1) (req ++ [k]) (acc ++ (api k).data) (by omega) (by omega)]
      have hpages : (List.range (m + 1 + 1)).map (fun j => k + j) =
          k :: (List.range (m + 1)).map (fun j => k + 1 + j) := by
        rw [List.range_succ_eq_map]
        simp only [List.map_cons, List.map_map, Nat.add_zero]
        congr 1
        apply List.map_congr_left
        intro j hj
        simp only [Function.comp_apply]
        omega
      have hdata : (List.range (m + 1 + 1)).map (fun j => (api (k + j)).data) =
          (api k).data :: (List.range (m + 1)).map (fun j => (api (k + 1 + j)).data) := by
        have h1 : (List.range (m + 1 + 1)).map (fun j => (api (k + j)).data) =
            ((List.range (m + 1 + 1)).map (fun j => k + j)).map (fun p => (api p).data) := by
          rw [List.map_map]
          rfl
        have h2 : (List.range (m + 1)).map (fun j => (api (k + 1 + j)).data) =
            ((List.range (m + 1)).map (fun j => k + 1 + j)).map (fun p => (api p).data) := by
          rw [List.map_map]
          rfl
        rw [h1, h2, hpages, List.map_cons]
      rw [hpages, hdata]
      simp [List.append_assoc]

theorem tickets_loop_run (api : Nat → PageResp) (N : Nat)
    (hapi : ∀ p, (api p).meta.current_page = p ∧ (api p).meta.last_page = N) :
    ∀ (n fuel k : Nat) (req acc : List Nat), k + n = N + 1 → n < fuel →
      get_tickets_loop api fuel k req acc =
        some (req ++ (List.range (n + 1)).map (fun j => k + j),
              acc ++ ((List.range (n + 1)).map (fun j => (api (k + j)).data)).flatten) := by
  intro n
  induction n with
  | zero =>
    intro fuel k req acc hk hf
    cases fuel with
    | zero => omega
    | succ f =>
      simp only [get_tickets_loop]
      rw [if_neg (by rw [(hapi k).1, (hapi k).2]; omega)]
      simp [show List.range 1 = [0] from rfl]
  | succ m ih =>
    intro fuel k req acc hk hf
    cases fuel with
    | zero => omega
    | succ f =>
      simp only [get_tickets_loop]
      rw [if_pos (by rw [(hapi k).1, (hapi k).2]; omega)]
      rw [ih f (k + 1) (req ++ [k]) (acc ++ (api k).data) (by omega) (by omega)]
      have hpages : (List.range (m + 1 + 1)).map (fun j => k + j) =
          k :: (List.range (m + 1)).map (fun j => k + 1 + j) := by
        rw [List.range_succ_eq_map]
        simp only [List.map_cons, List.map_map, Nat.add_zero]
        congr 1
        apply List.map_congr_left
        intro j hj
        simp only [Function.comp_apply]
        omega
      have hdata : (List.range (m + 1 + 1)).map (fun j => (api (k + j)).data) =
          (api k).data :: (List.range (m + 1)).map (fun j => (api (k + 1 + j)).data) := by
        have h1 : (List.range (m + 1 + 1)).map (fun j => (api (k + j)).data) =
            ((List.range (m + 1 + 1)).map (fun j => k + j)).map (fun p => (api p).data) := by
          rw [List.map_map]
          rfl
        have h2 : (List.range (m + 1)).map (fun j => (api (k + 1 + j)).data) =
            ((List.range (m + 1)).map (fun j => k + 1 + j)).map (fun p => (api p).data) := by
          rw [List.map_map]
          rfl
        rw [h1, h2, hpages, List.map_cons]
      rw [hpages, hdata]
      simp [List.append_assoc]

/-- C3 counterexample: against a well-behaved one-page API (`last_page =
1`, every response reporting the requested page), the members loop
requests pages 1 and 2 — it requests a page beyond the last page and does
not stop when `current_page` equals `last_page`. -/
theorem C3_pagination_counterexample :
    get_campaign_members apiOnePage 10 = some ([1, 2], [1]) ∧
    (apiOnePage 2).meta.last_page = 1 ∧ 2 ∈ ([1, 2] : List Nat) := by
  exact ⟨rfl, rfl, by decide⟩

/-- C3 (amended): the consumer requests pages sequentially from page 1 and
continues while `current_page ≤ last_page`, so against an API with `N`
pages (every response reporting the requested page as `current_page` and
`N` as `last_page`) it requests exactly pages 1 through `N + 1` — one page
beyond the last — stopping at the first response whose `current_page`
exceeds `last_page`, and accumulates the data arrays of all requested
pages (the overflow page's data array included). Both `get_campaign_members`
and `get_tickets` behave this way. -/
theorem C3_pagination_amended (api : Nat → PageResp) (N fuel : Nat)
    (hapi : ∀ p, (api p).meta.current_page = p ∧ (api p).meta.last_page = N)
    (hfuel : N < fuel) :
    get_campaign_members api fuel =
      some ((List.range (N + 1)).map (fun j => 1 + j),
            ((List.range (N + 1)).map (fun j => (api (1 + j)).data)).flatten) ∧
    get_tickets api fuel =
      some ((List.range (N + 1)).map (fun j => 1 + j),
            ((List.range (N + 1)).map (fun j => (api (1 + j)).data)).flatten) := by
  constructor
  · rw [get_campaign_members, members_loop_run api N hapi N fuel 1 [] [] (by omega) hfuel]
    simp
  · rw [get_tickets, tickets_loop_run api N hapi N fuel 1 [] [] (by omega) hfuel]
    simp

/-- C3 witness: the amended theorem applied to the one-page API — both
fetchers request pages [1, 2] and collect the single real page's data. -/
theorem C3_pagination_witness :
    get_campaign_members apiOnePage 3 = some ([1, 2], [1]) ∧
    get_tickets apiOnePage 3 = some ([1, 2], [1]) := by
  have h := C3_pagination_amended apiOnePage 1 3 (fun p => ⟨rfl, rfl⟩) (by omega)
  exact ⟨h.1.trans rfl, h.2.trans rfl⟩

/-! ## C2 — association-list and remote-operation lemmas -/

theorem lookupAssoc_insertAssoc_self {α : Type} (m : List (String × α)) (k : String) (v : α) :
    lookupAssoc (insertAssoc m k v) k = some v := by
  induction m with
  | nil => simp [insertAssoc, lookupAssoc]
  | cons p rest ih =>
    obtain ⟨k1, v1⟩ := p
    rw [insertAssoc]
    by_cases h : k1 = k
    · rw [if_pos h, lookupAssoc, if_pos h]
    · rw [if_neg h, lookupAssoc, if_neg h]
      exact ih

theorem lookupAssoc_insertAssoc_ne {α : Type} (m : List (String × α)) (k k2 : String) (v : α)
    (h : k2 ≠ k) : lookupAssoc (insertAssoc m k v) k2 = lookupAssoc m k2 := by
  induction m with
  | nil =>
    show (if k = k2 then some v else lookupAssoc ([] : List (String × α)) k2) =
      lookupAssoc ([] : List (String × α)) k2
    rw [if_neg (fun hh => h hh.symm)]
  | cons p rest ih =>
    obtain ⟨k1, v1⟩ := p
    rw [insertAssoc]
    by_cases h1 : k1 = k
    · have hx : ¬ k1 = k2 := by rw [h1]; exact fun hh => h hh.symm
      rw [if_pos h1, lookupAssoc, lookupAssoc, if_neg hx, if_neg hx]
    · rw [if_neg h1, lookupAssoc, lookupAssoc]
      by_cases h2 : k1 = k2
      · rw [if_pos h2, if_pos h2]
      · rw [if_neg h2, if_neg h2]
        exact ih

theorem buildMap_append_single (gs : List (String × Nat)) (p : String × Nat) :
    buildMap (gs ++ [p]) = insertAssoc (buildMap gs) p.1 p.2 := by
  unfold buildMap
  rw [List.foldl_append]
  rfl

theorem lookupAssoc_addMembership_self (l : List (String × Contact)) (e : String) (g : Nat) :
    lookupAssoc (addMembership l e g) e = (lookupAssoc l e).map
      (fun c => if g ∈ c.memberships then c
                else { c with memberships := c.memberships ++ [g] }) := by
  induction l with
  | nil => rfl
  | cons p rest ih =>
    obtain ⟨e1, c1⟩ := p
    rw [addMembership]
    by_cases h : e1 = e
    · rw [if_pos h]
      rw [lookupAssoc, if_pos h, lookupAssoc, if_pos h]
      rfl
    · rw [if_neg h]
      rw [lookupAssoc, if_neg h, lookupAssoc, if_neg h]
      exact ih

theorem lookupAssoc_addMembership_ne (l : List (String × Contact)) (e e2 : String) (g : Nat)
    (h : e2 ≠ e) : lookupAssoc (addMembership l e g) e2 = lookupAssoc l e2 := by
  induction l with
  | nil => rfl
  | cons p rest ih =>
    obtain ⟨e1, c1⟩ := p
    rw [addMembership]
    by_cases h1 : e1 = e
    · have hx : ¬ e1 = e2 := by rw [h1]; exact fun hh => h hh.symm
      rw [if_pos h1, lookupAssoc, lookupAssoc, if_neg hx, if_neg hx]
    · rw [if_neg h1, lookupAssoc, lookupAssoc]
      by_cases h2 : e1 = e2
      · rw [if_pos h2, if_pos h2]
      · rw [if_neg h2, if_neg h2]
        exact ih

theorem lookupAssoc_append_none {α : Type} (l1 l2 : List (String × α)) (k : String)
    (h : lookupAssoc l1 k = none) : lookupAssoc (l1 ++ l2) k = lookupAssoc l2 k := by
  induction l1 with
  | nil => rfl
  | cons p rest ih =>
    obtain ⟨k1, v1⟩ := p
    rw [lookupAssoc] at h
    by_cases h1 : k1 = k
    · rw [if_pos h1] at h
      exact absurd h (by simp)
    · rw [if_neg h1] at h
      rw [List.cons_append, lookupAssoc, if_neg h1]
      exact ih h

theorem lookupAssoc_append_some {α : Type} (l1 l2 : List (String × α)) (k : String) (v : α)
    (h : lookupAssoc l1 k = some v) : lookupAssoc (l1 ++ l2) k = some v := by
  induction l1 with
  | nil => simp [lookupAssoc] at h
  | cons p rest ih =>
    obtain ⟨k1, v1⟩ := p
    rw [lookupAssoc] at h
    rw [List.cons_append, lookupAssoc]
    by_cases h1 : k1 = k
    · rw [if_pos h1] at h
      rw [if_pos h1]
      exact h
    · rw [if_neg h1] at h
      rw [if_neg h1]
      exact ih h

theorem insertContact_of_none (l : List (String × Contact)) (e : String) (c : Contact)
    (h : lookupAssoc l e = none) : insertContact l e c = l ++ [(e, c)] := by
  induction l with
  | nil => rfl
  | cons p rest ih =>
    obtain ⟨e1, c1⟩ := p
    rw [lookupAssoc] at h
    by_cases h1 : e1 = e
    · rw [if_pos h1] at h
      exact absurd h (by simp)
    · rw [if_neg h1] at h
      rw [insertContact, if_neg h1, List.cons_append, ih h]

theorem lookupAssoc_filter_ne {α : Type} (l : List (String × α)) (e : String) (h : e ≠ "") :
    lookupAssoc (l.filter (fun p => !decide (p.1 = ""))) e = lookupAssoc l e := by
  induction l with
  | nil => rfl
  | cons p rest ih =>
    obtain ⟨k1, v1⟩ := p
    rw [List.filter_cons]
    by_cases h1 : k1 = ""
    · have hc : (!decide ((k1, v1).1 = "")) = false := by simp [h1]
      rw [hc]
      simp only [Bool.false_eq_true, if_false]
      rw [ih]
      have hx : ¬ k1 = e := by rw [h1]; exact fun hh => h hh.symm
      show lookupAssoc rest e = if k1 = e then some v1 else lookupAssoc rest e
      rw [if_neg hx]
    · have hc : (!decide ((k1, v1).1 = "")) = true := by simp [h1]
      rw [hc]
      simp only [if_true]
      show (if k1 = e then some v1
        else lookupAssoc (rest.filter (fun p => !decide (p.1 = ""))) e) =
        if k1 = e then some v1 else lookupAssoc rest e
      by_cases h2 : k1 = e
      · rw [if_pos h2, if_pos h2]
      · rw [if_neg h2, if_neg h2]
        exact ih

theorem lookupAssoc_filter_empty {α : Type} (l : List (String × α)) :
    lookupAssoc (l.filter (fun p => !decide (p.1 = ""))) "" = none := by
  induction l with
  | nil => rfl
  | cons p rest ih =>
    obtain ⟨k1, v1⟩ := p
    rw [List.filter_cons]
    by_cases h1 : k1 = ""
    · have hc : (!decide ((k1, v1).1 = "")) = false := by simp [h1]
      rw [hc]
      simp only [Bool.false_eq_true, if_false]
      exact ih
    · have hc : (!decide ((k1, v1).1 = "")) = true := by simp [h1]
      rw [hc]
      simp only [if_true]
      show (if k1 = "" then some v1
        else lookupAssoc (rest.filter (fun p => !decide (p.1 = ""))) "") = none
      rw [if_neg h1]
      exact ih

theorem deleteTargetGroups_eq_self (s : RemoteState) (h : ∀ p ∈ s.groups, p.1 ∉ targetGroups) :
    deleteTargetGroups s = s := by
  unfold deleteTargetGroups
  have hfil : s.groups.filter (fun p => !decide (p.1 ∈ targetGroups)) = s.groups :=
    List.filter_eq_self.mpr (fun p hp => by simp [h p hp])
  have hdel : s.groups.filter (fun p => decide (p.1 ∈ targetGroups)) = [] :=
    List.filter_eq_nil_iff.mpr (fun p hp => by simp [h p hp])
  rw [hfil, hdel]
  simp only [List.map_nil]
  have hcon : ∀ p ∈ s.contacts,
      ((p.1, { p.2 with
        memberships := p.2.memberships.filter (fun g => !decide (g ∈ ([] : List Nat))) }) :
        String × Contact) = p := by
    intro p hp
    have hm : p.2.memberships.filter (fun g => !decide (g ∈ ([] : List Nat))) =
        p.2.memberships := by simp
    rw [hm]
  rw [(List.map_congr_left hcon).trans (List.map_id' s.contacts)]

theorem mem_addMemVal (c : Contact) (g : Nat) :
    g ∈ (if g ∈ c.memberships then c
         else { c with memberships := c.memberships ++ [g] }).memberships := by
  by_cases h : g ∈ c.memberships
  · rw [if_pos h]
    exact h
  · rw [if_neg h]
    simp

theorem subset_addMemVal (c : Contact) (g : Nat) :
    c.memberships ⊆ (if g ∈ c.memberships then c
      else { c with memberships := c.memberships ++ [g] }).memberships := by
  by_cases h : g ∈ c.memberships
  · rw [if_pos h]
    exact List.Subset.refl _
  · rw [if_neg h]
    exact List.subset_append_left _ _

theorem lookupAssoc_addMembership_none_iff (l : List (String × Contact)) (e e2 : String)
    (g : Nat) : lookupAssoc (addMembership l e g) e2 = none ↔ lookupAssoc l e2 = none := by
  by_cases h : e2 = e
  · subst h
    rw [lookupAssoc_addMembership_self]
    cases lookupAssoc l e2 <;> simp
  · rw [lookupAssoc_addMembership_ne l e e2 g h]

theorem lookupAssoc_append_single_ne {α : Type} (l : List (String × α)) (e e2 : String) (c : α)
    (h : e2 ≠ e) : lookupAssoc (l ++ [(e, c)]) e2 = lookupAssoc l e2 := by
  induction l with
  | nil =>
    show (if e = e2 then some c else lookupAssoc ([] : List (String × α)) e2) =
      lookupAssoc ([] : List (String × α)) e2
    rw [if_neg (fun hh => h hh.symm)]
  | cons p rest ih =>
    obtain ⟨k1, v1⟩ := p
    show (if k1 = e2 then some v1 else lookupAssoc (rest ++ [(e, c)]) e2) =
      if k1 = e2 then some v1 else lookupAssoc rest e2
    by_cases h2 : k1 = e2
    · rw [if_pos h2, if_pos h2]
    · rw [if_neg h2, if_neg h2]
      exact ih

theorem resolveGroup_step (st : SyncState) (label : String)
    (hinv : SyncInv st) (hlabel : label ∉ targetGroups) :
    SyncInv (resolveGroup st label).2 ∧
    lookupAssoc (resolveGroup st label).2.gmap label = some (resolveGroup st label).1 ∧
    (resolveGroup st label).2.remote.contacts = st.remote.contacts ∧
    (resolveGroup st label).2.cache = st.cache ∧
    (resolveGroup st label).2.calls = st.calls ∧
    (∀ L g0, lookupAssoc st.gmap L = some g0 →
      lookupAssoc (resolveGroup st label).2.gmap L = some g0) := by
  cases hg : lookupAssoc st.gmap label with
  | some g =>
    have hres : resolveGroup st label = (g, st) := by
      simp only [resolveGroup, hg]
    rw [hres]
    exact ⟨hinv, hg, rfl, rfl, rfl, fun L g0 h => h⟩
  | none =>
    have hres : resolveGroup st label = (st.remote.nextId,
        { st with
          remote := { st.remote with
                      groups := st.remote.groups ++ [(label, st.remote.nextId)]
                      nextId := st.remote.nextId + 1 }
          gmap := insertAssoc st.gmap label st.remote.nextId }) := by
      simp only [resolveGroup, hg]
    rw [hres]
    refine ⟨⟨?_, ?_, ?_, ?_, ?_⟩, ?_, rfl, rfl, rfl, ?_⟩
    · exact hinv.cache_no_empty
    · intro p hp
      rcases List.mem_append.mp hp with hp | hp
      · exact hinv.groups_no_target p hp
      · rw [List.mem_singleton.mp hp]
        exact hlabel
    · show insertAssoc st.gmap label st.remote.nextId =
        buildMap (st.remote.groups ++ [(label, st.remote.nextId)])
      rw [buildMap_append_single, ← hinv.gmap_eq]
    · exact hinv.keys_sync
    · exact hinv.cache_sub
    · exact lookupAssoc_insertAssoc_self st.gmap label st.remote.nextId
    · intro L g0 h
      by_cases hL : L = label
      · rw [hL] at h
        rw [h] at hg
        exact absurd hg (by simp)
      · show lookupAssoc (insertAssoc st.gmap label st.remote.nextId) L = some g0
        rw [lookupAssoc_insertAssoc_ne st.gmap label L st.remote.nextId hL]
        exact h

theorem syncContact_step (st : SyncState) (e : String) (g : Nat)
    (hinv : SyncInv st) (he : e ≠ "") :
    SyncInv (syncContact st e g) ∧
    (∃ c, lookupAssoc (syncContact st e g).remote.contacts e = some c ∧ g ∈ c.memberships) ∧
    (syncContact st e g).gmap = st.gmap ∧
    (syncContact st e g).remote.groups = st.remote.groups ∧
    (∀ e2 c2, lookupAssoc st.remote.contacts e2 = some c2 →
      ∃ c3, lookupAssoc (syncContact st e g).remote.contacts e2 = some c3 ∧
        c2.memberships ⊆ c3.memberships) := by
  cases hc : lookupAssoc st.cache e with
  | some c =>
    by_cases hmem : g ∈ c.memberships
    · have hstate : syncContact st e g = st := by
        simp only [syncContact, hc, if_pos hmem]
      rw [hstate]
      obtain ⟨d, hd, hsub⟩ := hinv.cache_sub e c hc
      exact ⟨hinv, ⟨d, hd, hsub hmem⟩, rfl, rfl,
        fun e2 c2 h2 => ⟨c2, h2, List.Subset.refl _⟩⟩
    · have hstate : syncContact st e g =
          { st with
            remote := { st.remote with contacts := addMembership st.remote.contacts e g }
            calls := st.calls + 1 } := by
        simp only [syncContact, hc, if_neg hmem]
      rw [hstate]
      obtain ⟨d, hd, hsub⟩ := hinv.cache_sub e c hc
      refine ⟨⟨?_, ?_, ?_, ?_, ?_⟩, ?_, rfl, rfl, ?_⟩
      · exact hinv.cache_no_empty
      · exact hinv.groups_no_target
      · exact hinv.gmap_eq
      · intro e2 he2
        show lookupAssoc st.cache e2 = none ↔
          lookupAssoc (addMembership st.remote.contacts e g) e2 = none
        rw [lookupAssoc_addMembership_none_iff]
        exact hinv.keys_sync e2 he2
      · intro e2 c2 h2
        obtain ⟨d2, hd2, hsub2⟩ := hinv.cache_sub e2 c2 h2
        by_cases h3 : e2 = e
        · subst h3
          show ∃ c3, lookupAssoc (addMembership st.remote.contacts e2 g) e2 = some c3 ∧
            c2.memberships ⊆ c3.memberships
          rw [lookupAssoc_addMembership_self, hd2]
          exact ⟨_, rfl, hsub2.trans (subset_addMemVal d2 g)⟩
        · show ∃ c3, lookupAssoc (addMembership st.remote.contacts e g) e2 = some c3 ∧
            c2.memberships ⊆ c3.memberships
          rw [lookupAssoc_addMembership_ne _ _ _ _ h3]
          exact ⟨d2, hd2, hsub2⟩
      · show ∃ c3, lookupAssoc (addMembership st.remote.contacts e g) e = some c3 ∧
          g ∈ c3.memberships
        rw [lookupAssoc_addMembership_self, hd]
        exact ⟨_, rfl, mem_addMemVal d g⟩
      · intro e2 c2 h2
        by_cases h3 : e2 = e
        · subst h3
          show ∃ c3, lookupAssoc (addMembership st.remote.contacts e2 g) e2 = some c3 ∧
            c2.memberships ⊆ c3.memberships
          rw [lookupAssoc_addMembership_self, h2]
          exact ⟨_, rfl, subset_addMemVal c2 g⟩
        · show ∃ c3, lookupAssoc (addMembership st.remote.contacts e g) e2 = some c3 ∧
            c2.memberships ⊆ c3.memberships
          rw [lookupAssoc_addMembership_ne _ _ _ _ h3]
          exact ⟨c2, h2, List.Subset.refl _⟩
  | none =>
    have hrn : lookupAssoc st.remote.contacts e = none := (hinv.keys_sync e he).mp hc
    have hstate : syncContact st e g =
        { st with
          remote := { st.remote with
            contacts :=
              addMembership (st.remote.contacts ++ [(e, ⟨st.remote.nextId, []⟩)]) e g
            nextId := st.remote.nextId + 1 }
          cache := st.cache ++ [(e, ⟨st.remote.nextId, []⟩)]
          calls := st.calls + 1 } := by
      simp only [syncContact, hc]
      rw [insertContact_of_none st.remote.contacts e _ hrn,
          insertContact_of_none st.cache e _ hc]
    rw [hstate]
    have happ : lookupAssoc (st.remote.contacts ++ [(e, (⟨st.remote.nextId, []⟩ : Contact))]) e =
        some ⟨st.remote.nextId, []⟩ := by
      rw [lookupAssoc_append_none _ _ _ hrn]
      show (if e = e then some (⟨st.remote.nextId, []⟩ : Contact)
        else lookupAssoc ([] : List (String × Contact)) e) = some ⟨st.remote.nextId, []⟩
      rw [if_pos rfl]
    refine ⟨⟨?_, ?_, ?_, ?_, ?_⟩, ?_, rfl, rfl, ?_⟩
    · show lookupAssoc (st.cache ++ [(e, (⟨st.remote.nextId, []⟩ : Contact))]) "" = none
      rw [lookupAssoc_append_none _ _ _ hinv.cache_no_empty]
      show (if e = "" then some (⟨st.remote.nextId, []⟩ : Contact)
        else lookupAssoc ([] : List (String × Contact)) "") = none
      rw [if_neg he]
      rfl
    · exact hinv.groups_no_target
    · exact hinv.gmap_eq
    · intro e2 he2
      by_cases h3 : e2 = e
      · subst h3
        show lookupAssoc (st.cache ++ [(e2, (⟨st.remote.nextId, []⟩ : Contact))]) e2 = none ↔
          lookupAssoc
            (addMembership (st.remote.contacts ++ [(e2, (⟨st.remote.nextId, []⟩ : Contact))]) e2 g)
            e2 = none
        rw [lookupAssoc_append_none _ _ _ hc, lookupAssoc_addMembership_self, happ]
        show (if e2 = e2 then some (⟨st.remote.nextId, []⟩ : Contact)
          else lookupAssoc ([] : List (String × Contact)) e2) = none ↔ _
        rw [if_pos rfl]
        simp
      · show lookupAssoc (st.cache ++ [(e, (⟨st.remote.nextId, []⟩ : Contact))]) e2 = none ↔
          lookupAssoc
            (addMembership (st.remote.contacts ++ [(e, (⟨st.remote.nextId, []⟩ : Contact))]) e g)
            e2 = none
        rw [lookupAssoc_append_single_ne _ _ _ _ h3,
            lookupAssoc_addMembership_ne _ _ _ _ h3,
            lookupAssoc_append_single_ne _ _ _ _ h3]
        exact hinv.keys_sync e2 he2
    · intro e2 c2 h2
      by_cases h3 : e2 = e
      · subst h3
        have h2' : lookupAssoc (st.cache ++ [(e2, (⟨st.remote.nextId, []⟩ : Contact))]) e2 =
            some c2 := h2
        rw [lookupAssoc_append_none _ _ _ hc] at h2'
        have hc2 : c2 = ⟨st.remote.nextId, []⟩ := by
          have h2x : (if e2 = e2 then some (⟨st.remote.nextId, []⟩ : Contact)
            else lookupAssoc ([] : List (String × Contact)) e2) = some c2 := h2'
          rw [if_pos rfl] at h2x
          exact (Option.some.inj h2x).symm
        show ∃ c3, lookupAssoc
            (addMembership (st.remote.contacts ++ [(e2, (⟨st.remote.nextId, []⟩ : Contact))]) e2 g)
            e2 = some c3 ∧ c2.memberships ⊆ c3.memberships
        rw [lookupAssoc_addMembership_self, happ]
        refine ⟨_, rfl, ?_⟩
        rw [hc2]
        exact List.nil_subset _
      · have h2' : lookupAssoc (st.cache ++ [(e, (⟨st.remote.nextId, []⟩ : Contact))]) e2 =
            some c2 := h2
        rw [lookupAssoc_append_single_ne _ _ _ _ h3] at h2'
        obtain ⟨d2, hd2, hsub2⟩ := hinv.cache_sub e2 c2 h2'
        show ∃ c3, lookupAssoc
            (addMembership (st.remote.contacts ++ [(e, (⟨st.remote.nextId, []⟩ : Contact))]) e g)
            e2 = some c3 ∧ c2.memberships ⊆ c3.memberships
        rw [lookupAssoc_addMembership_ne _ _ _ _ h3,
            lookupAssoc_append_single_ne _ _ _ _ h3]
        exact ⟨d2, hd2, hsub2⟩
    · show ∃ c3, lookupAssoc
          (addMembership (st.remote.contacts ++ [(e, (⟨st.remote.nextId, []⟩ : Contact))]) e g)
          e = some c3 ∧ g ∈ c3.memberships
      rw [lookupAssoc_addMembership_self, happ]
      exact ⟨_, rfl, mem_addMemVal _ g⟩
    · intro e2 c2 h2
      by_cases h3 : e2 = e
      · rw [h3] at h2
        rw [h2] at hrn
        exact absurd hrn (by simp)
      · show ∃ c3, lookupAssoc
            (addMembership (st.remote.contacts ++ [(e, (⟨st.remote.nextId, []⟩ : Contact))]) e g)
            e2 = some c3 ∧ c2.memberships ⊆ c3.memberships
        rw [lookupAssoc_addMembership_ne _ _ _ _ h3,
            lookupAssoc_append_single_ne _ _ _ _ h3]
        exact ⟨c2, h2, List.Subset.refl _⟩

theorem processRow_step (st : SyncState) (row : CsvRow)
    (hinv : SyncInv st) (hrow : GoodRow row) :
    SyncInv (processRow st row) ∧ RowDone (processRow st row) row ∧
    (∀ r, RowDone st r → RowDone (processRow st row) r) := by
  obtain ⟨hinv1, hlook, hcon, hcache, hcalls, hpres⟩ :=
    resolveGroup_step st (pyStrip row.labels) hinv hrow.1
  obtain ⟨hinv2, hdone, hgmap, hgroups, hgrow⟩ :=
    syncContact_step (resolveGroup st (pyStrip row.labels)).2
      (pyLower (pyStrip row.email)) (resolveGroup st (pyStrip row.labels)).1 hinv1 hrow.2
  have hp : processRow st row =
      syncContact (resolveGroup st (pyStrip row.labels)).2 (pyLower (pyStrip row.email))
        (resolveGroup st (pyStrip row.labels)).1 := rfl
  rw [hp]
  refine ⟨hinv2, ?_, ?_⟩
  · refine ⟨(resolveGroup st (pyStrip row.labels)).1, ?_, hdone⟩
    rw [hgmap]
    exact hlook
  · intro r hr
    obtain ⟨g0, hg0, c0, hc0, hm0⟩ := hr
    refine ⟨g0, ?_, ?_⟩
    · rw [hgmap]
      exact hpres _ _ hg0
    · have hc0a : lookupAssoc (resolveGroup st (pyStrip row.labels)).2.remote.contacts
          (pyLower (pyStrip r.email)) = some c0 := by
        rw [hcon]
        exact hc0
      obtain ⟨c3, hc3, hsub3⟩ := hgrow _ _ hc0a
      exact ⟨c3, hc3, hsub3 hm0⟩

theorem foldl_processRow_spec (rows : List CsvRow) :
    ∀ st, SyncInv st → (∀ r ∈ rows, GoodRow r) →
      SyncInv (rows.foldl processRow st) ∧
      (∀ r, RowDone st r → RowDone (rows.foldl processRow st) r) ∧
      (∀ r ∈ rows, RowDone (rows.foldl processRow st) r) := by
  induction rows with
  | nil => exact fun st hinv _ => ⟨hinv, fun r h => h, by simp⟩
  | cons row rest ih =>
    intro st hinv hgood
    have hrow : GoodRow row := hgood row (List.mem_cons_self _ _)
    obtain ⟨hinv1, hdone1, hmono1⟩ := processRow_step st row hinv hrow
    obtain ⟨hinvf, hmonof, hallf⟩ := ih (processRow st row) hinv1
      (fun r hr => hgood r (List.mem_cons_of_mem _ hr))
    rw [List.foldl_cons]
    refine ⟨hinvf, fun r h => hmonof r (hmono1 r h), ?_⟩
    intro r hr
    rcases List.mem_cons.mp hr with hr | hr
    · rw [hr]
      exact hmonof row hdone1
    · exact hallf r hr

theorem processRow_settled (st : SyncState) (r : CsvRow) (h : RowSettled st r) :
    processRow st r = st := by
  obtain ⟨g, hg, c, hc, hm⟩ := h
  have h1 : resolveGroup st (pyStrip r.labels) = (g, st) := by
    simp only [resolveGroup, hg]
  show syncContact (resolveGroup st (pyStrip r.labels)).2 (pyLower (pyStrip r.email))
    (resolveGroup st (pyStrip r.labels)).1 = st
  rw [h1]
  show syncContact st (pyLower (pyStrip r.email)) g = st
  simp only [syncContact, hc, if_pos hm]

theorem foldl_processRow_settled (rows : List CsvRow) :
    ∀ st, (∀ r ∈ rows, RowSettled st r) → rows.foldl processRow st = st := by
  induction rows with
  | nil => exact fun st _ => rfl
  | cons row rest ih =>
    intro st hset
    rw [List.foldl_cons, processRow_settled st row (hset row (List.mem_cons_self _ _))]
    exact ih st (fun r hr => hset r (List.mem_cons_of_mem _ hr))

theorem runService_init_inv (t : RemoteState) :
    SyncInv { remote := deleteTargetGroups t
              cache := (deleteTargetGroups t).contacts.filter (fun p => !decide (p.1 = ""))
              gmap := buildMap (deleteTargetGroups t).groups
              calls := 0 } := by
  refine ⟨?_, ?_, rfl, ?_, ?_⟩
  · exact lookupAssoc_filter_empty _
  · intro p hp
    have hp2 : p ∈ t.groups.filter (fun q => !decide (q.1 ∈ targetGroups)) := hp
    obtain ⟨hmem, hdec⟩ := List.mem_filter.mp hp2
    simpa using hdec
  · intro e he
    show lookupAssoc ((deleteTargetGroups t).contacts.filter (fun p => !decide (p.1 = ""))) e =
      none ↔ lookupAssoc (deleteTargetGroups t).contacts e = none
    rw [lookupAssoc_filter_ne _ _ he]
  · intro e c h
    have he : e ≠ "" := by
      intro hee
      rw [hee, lookupAssoc_filter_empty] at h
      exact absurd h (by simp)
    have h2 : lookupAssoc (deleteTargetGroups t).contacts e = some c := by
      rw [← lookupAssoc_filter_ne (deleteTargetGroups t).contacts e he]
      exact h
    exact ⟨c, h2, List.Subset.refl _⟩

/-- C2 counterexample: a single contact row labelled with the managed
group `2025_Rider`, synced twice from an empty remote directory. The
second run still performs one membership-modification call, because the
sync deletes the managed target groups at the start of every run and so
re-adds every target-group membership each time; the claim of zero calls
on the second run is false. -/
theorem C2_contact_sync_counterexample :
    (runService [⟨"A", "B", "a@x.com", "1", "2025_Rider"⟩]
      (runService [⟨"A", "B", "a@x.com", "1", "2025_Rider"⟩] ⟨[], [], 0⟩).1).2 = 1 := by
  decide

/-- C2 (amended): for rows whose (stripped) group label is not one of the
managed target labels `2025_Rider`/`2025_Volunteer` and whose normalized
email is non-empty, the sync does converge: running it twice in
succession against any remote state performs zero membership-modification
calls during the second run. For target-labelled rows the property fails
(see the counterexample), since target groups are deleted and recreated
at the start of every run. -/
theorem C2_contact_sync_amended (rows : List CsvRow) (s : RemoteState)
    (hlabels : ∀ r ∈ rows, pyStrip r.labels ∉ targetGroups)
    (hemails : ∀ r ∈ rows, pyLower (pyStrip r.email) ≠ "") :
    (runService rows (runService rows s).1).2 = 0 := by
  have hgood : ∀ r ∈ rows, GoodRow r := fun r hr => ⟨hlabels r hr, hemails r hr⟩
  obtain ⟨hinvf, hmono, hdone⟩ := foldl_processRow_spec rows
    { remote := deleteTargetGroups s
      cache := (deleteTargetGroups s).contacts.filter (fun p => !decide (p.1 = ""))
      gmap := buildMap (deleteTargetGroups s).groups
      calls := 0 } (runService_init_inv s) hgood
  set stf := rows.foldl processRow
    { remote := deleteTargetGroups s
      cache := (deleteTargetGroups s).contacts.filter (fun p => !decide (p.1 = ""))
      gmap := buildMap (deleteTargetGroups s).groups
      calls := 0 } with hstf
  have h1 : (runService rows s).1 = stf.remote := rfl
  rw [h1]
  have hdel : deleteTargetGroups stf.remote = stf.remote :=
    deleteTargetGroups_eq_self stf.remote hinvf.groups_no_target
  have h2 : (runService rows stf.remote).2 =
      (rows.foldl processRow
        { remote := deleteTargetGroups stf.remote
          cache := (deleteTargetGroups stf.remote).contacts.filter (fun p => !decide (p.1 = ""))
          gmap := buildMap (deleteTargetGroups stf.remote).groups
          calls := 0 }).calls := rfl
  rw [h2, hdel]
  have hsettled : ∀ r ∈ rows, RowSettled
      { remote := stf.remote
        cache := stf.remote.contacts.filter (fun p => !decide (p.1 = ""))
        gmap := buildMap stf.remote.groups
        calls := 0 } r := by
    intro r hr
    obtain ⟨g0, hg0, c0, hc0, hm0⟩ := hdone r hr
    refine ⟨g0, ?_, c0, ?_, hm0⟩
    · show lookupAssoc (buildMap stf.remote.groups) (pyStrip r.labels) = some g0
      rw [← hinvf.gmap_eq]
      exact hg0
    · show lookupAssoc (stf.remote.contacts.filter (fun p => !decide (p.1 = "")))
        (pyLower (pyStrip r.email)) = some c0
      rw [lookupAssoc_filter_ne _ _ (hemails r hr)]
      exact hc0
  rw [foldl_processRow_settled rows _ hsettled]

/-- C2 witness: the amended theorem applied to one non-target-labelled row
synced twice from the empty remote state — the second run performs zero
membership-modification calls. -/
theorem C2_contact_sync_witness :
    (runService [⟨"A", "B", "a@x.com", "1", "Friends"⟩]
      (runService [⟨"A", "B", "a@x.com", "1", "Friends"⟩] ⟨[], [], 0⟩).1).2 = 0 :=
  C2_contact_sync_amended [⟨"A", "B", "a@x.com", "1", "Friends"⟩] ⟨[], [], 0⟩
    (by
      intro r hr
      rw [List.mem_singleton.mp hr]
      decide)
    (by
      intro r hr
      rw [List.mem_singleton.mp hr]
      decide)
